import Mathlib

/-!
Verification development for the v8_derive repository: a shallow embedding of
the conversion core (src/v8_derive/src/helpers.rs, from.rs, into.rs, json.rs)
together with a model of the engine (rusty_v8 / ECMAScript) primitives those
files call.  Engine primitives are not code of this repository; they are
modelled after the documented ECMAScript coercion semantics the spec refers
to, restricted where noted to the fragments the claims exercise.  The error
enumeration (errors.rs) and the derive-macro output are not present under
src/ and are modelled from the spec (sections 4.3, 4.5 and 7).
-/

namespace V8D

/-- Modelled from the spec: the closed error taxonomy of errors.rs (spec
section 7); errors.rs itself is not under src/, only its uses are. -/
inductive Error where
  | ExpectedObject
  | ExpectedArray
  | ExpectedMap
  | ExpectedBoolean
  | ExpectedString
  | ExpectedI32
  | ExpectedU32
  | ExpectedI64
  | ExpectedF64
  | OutOfRange
  | InvalidField (name : String)
  | FieldNotFound (name : String)
  | FailedToGetPropertyNames
  | UnsupportedValueType
  deriving Repr, DecidableEq

/-- A V8 double.  Finite doubles are modelled as rational numbers; NaN is kept
because the engine coercions produce it (undefined, non-numeric strings).
Infinities do not arise in any claim and are omitted. -/
inductive JsNum where
  | fin (q : ℚ)
  | nan
  deriving Repr, DecidableEq

/-- A dynamic engine value (v8::Value), capability-tagged as in the spec's
data model.  Numbers (including 32-bit integers, which V8 stores as numbers)
carry a JsNum; big integers are unbounded; objects are modelled as their own
enumerable string-keyed properties in insertion order with distinct keys;
maps as their (key, value) pair list. -/
inductive DynValue where
  | vnull
  | vundefined
  | vbool (b : Bool)
  | vnumber (n : JsNum)
  | vbigint (i : ℤ)
  | vstring (s : String)
  | varray (elems : List DynValue)
  | vobject (props : List (String × DynValue))
  | vmap (entries : List (DynValue × DynValue))

/-- v8::Value::IsNull. -/
def is_null : DynValue → Bool
  | .vnull => true
  | _ => false

/-- v8::Value::IsNullOrUndefined. -/
def is_null_or_undefined : DynValue → Bool
  | .vnull => true
  | .vundefined => true
  | _ => false

/-- v8::Value::IsString. -/
def is_string : DynValue → Bool
  | .vstring _ => true
  | _ => false

/-- v8::Value::IsBoolean. -/
def is_boolean : DynValue → Bool
  | .vbool _ => true
  | _ => false

/-- v8::Value::IsNumber. -/
def is_number : DynValue → Bool
  | .vnumber _ => true
  | _ => false

/-- v8::Value::IsBigInt. -/
def is_big_int : DynValue → Bool
  | .vbigint _ => true
  | _ => false

/-- v8::Value::IsArray. -/
def is_array : DynValue → Bool
  | .varray _ => true
  | _ => false

/-- v8::Value::IsMap. -/
def is_map : DynValue → Bool
  | .vmap _ => true
  | _ => false

/-- v8::Value::IsObject: true for plain objects, arrays and maps alike. -/
def is_object : DynValue → Bool
  | .vobject _ => true
  | .varray _ => true
  | .vmap _ => true
  | _ => false

/-- v8::Value::IsInt32: a number whose value is an integer in signed 32-bit
range. -/
def is_int32 : DynValue → Bool
  | .vnumber (.fin q) => q.den == 1 && decide (-(2 ^ 31) ≤ q.num) && decide (q.num < 2 ^ 31)
  | _ => false

/-- v8::Value::IsUint32: a number whose value is an integer in unsigned
32-bit range. -/
def is_uint32 : DynValue → Bool
  | .vnumber (.fin q) => q.den == 1 && decide (0 ≤ q.num) && decide (q.num < 2 ^ 32)
  | _ => false

/-- Decimal value of a digit list (most significant first). -/
def decDigitsVal (l : List Char) : ℕ :=
  l.foldl (fun a c => a * 10 + (c.toNat - 48)) 0

/-- ECMAScript StringToNumber, modelled for the decimal fragment: an empty
string is 0, an optional sign followed by decimal digits with an optional
fractional part parses to its value, anything else is NaN (none).  Exponents,
hex literals, Infinity and surrounding whitespace are outside every claim and
are treated as NaN. -/
def stringToNumber (s : String) : Option ℚ :=
  match s.data with
  | [] => some 0
  | t =>
    let (sign, t) : ℚ × List Char :=
      match t with
      | '-' :: r => (-1, r)
      | '+' :: r => (1, r)
      | _ => (1, t)
    match t.splitOn '.' with
    | [ip] =>
      if ip ≠ [] ∧ ip.all Char.isDigit then some (sign * decDigitsVal ip) else none
    | [ip, fp] =>
      if (ip ++ fp) ≠ [] ∧ (ip ++ fp).all Char.isDigit then
        some (sign * ((decDigitsVal ip : ℚ) + (decDigitsVal fp : ℚ) / (10 : ℚ) ^ fp.length))
      else none
    | _ => none

/-- ECMAScript StringToBigInt, modelled for the decimal fragment: empty
string is 0n, an optional sign followed by decimal digits parses, anything
else (including fractional literals) is a SyntaxError (none). -/
def stringToBigInt (s : String) : Option ℤ :=
  match s.data with
  | [] => some 0
  | t =>
    let (sign, t) : ℤ × List Char :=
      match t with
      | '-' :: r => (-1, r)
      | '+' :: r => (1, r)
      | _ => (1, t)
    if t ≠ [] ∧ t.all Char.isDigit then some (sign * decDigitsVal t) else none

/-- A canonical array index: plain decimal digits. -/
def parseIndex (s : String) : Option ℕ :=
  if s.data ≠ [] ∧ s.data.all Char.isDigit then some (decDigitsVal s.data) else none

/-- Truncation toward zero of a rational, as the engine's integer conversions
do after ToNumber. -/
def truncQ (q : ℚ) : ℤ :=
  if 0 ≤ q then ⌊q⌋ else -⌊-q⌋

/-- Wrap an integer into signed 32-bit range (ECMAScript ToInt32 final step). -/
def wrap32 (i : ℤ) : ℤ :=
  (i + 2 ^ 31) % 2 ^ 32 - 2 ^ 31

/-- Wrap an integer into unsigned 32-bit range (ECMAScript ToUint32). -/
def wrapU32 (i : ℤ) : ℤ :=
  i % 2 ^ 32

/-- Wrap an integer into signed 64-bit range: v8::BigInt::i64_value returns
the low 64 bits of the big integer interpreted as signed, with a separate
lossless flag (which helpers.rs discards). -/
def wrapI64 (i : ℤ) : ℤ :=
  (i + 2 ^ 63) % 2 ^ 64 - 2 ^ 63

/-- Recursion budget for the structural-recursion embeddings of the engine's
recursive walks.  It exceeds any nesting depth the engine's own stack
supports, so it is never exhausted on values the engine can hold. -/
def jsFuel : ℕ := 1000000

/-- ECMAScript ToString of a dynamic value, fuelled for the array-join
recursion (the wrapper supplies jsFuel, which is never exhausted).
Non-integral number formatting (shortest round-trip decimal) is not modelled
exactly; no claim evaluates it. -/
def jsToStringFuel (fuel : ℕ) (v : DynValue) : String :=
  match v with
  | .vnull => "null"
  | .vundefined => "undefined"
  | .vbool b => if b then "true" else "false"
  | .vnumber .nan => "NaN"
  | .vnumber (.fin q) => if q.den = 1 then toString q.num else toString q
  | .vbigint i => toString i
  | .vstring s => s
  | .varray l =>
    match fuel with
    | 0 => ""
    | f + 1 =>
      String.intercalate "," (l.map fun x =>
        if is_null_or_undefined x then "" else jsToStringFuel f x)
  | .vobject _ => "[object Object]"
  | .vmap _ => "[object Map]"

/-- v8::Value::to_rust_string_lossy: the engine's to-string coercion (total;
lossy conversion of malformed UTF-16 does not arise in the model). -/
def js_to_string (v : DynValue) : String :=
  jsToStringFuel jsFuel v

/-- StringToNumber packaged as a JsNum (unparsable strings are NaN). -/
def numOfString (s : String) : JsNum :=
  match stringToNumber s with
  | some q => .fin q
  | none => .nan

/-- ECMAScript ToNumber; none models a thrown TypeError, which happens
exactly for big-int input (Symbols are not modelled).  Objects, arrays and
maps coerce through ToPrimitive, i.e. their ToString. -/
def toNumberModel : DynValue → Option JsNum
  | .vnull => some (.fin 0)
  | .vundefined => some .nan
  | .vbool b => some (.fin (if b then 1 else 0))
  | .vnumber n => some n
  | .vbigint _ => none
  | .vstring s => some (numOfString s)
  | .varray l => some (numOfString (js_to_string (.varray l)))
  | .vobject props => some (numOfString (js_to_string (.vobject props)))
  | .vmap entries => some (numOfString (js_to_string (.vmap entries)))

/-- v8::Value::number_value. -/
def number_value (v : DynValue) : Option JsNum :=
  toNumberModel v

/-- v8::Value::int32_value: ToInt32 (NaN to 0, truncate, wrap); empty when
ToNumber throws. -/
def int32_value (v : DynValue) : Option ℤ :=
  (toNumberModel v).map fun n =>
    match n with
    | .nan => 0
    | .fin q => wrap32 (truncQ q)

/-- v8::Value::uint32_value: ToUint32; empty when ToNumber throws. -/
def uint32_value (v : DynValue) : Option ℤ :=
  (toNumberModel v).map fun n =>
    match n with
    | .nan => 0
    | .fin q => wrapU32 (truncQ q)

/-- v8::Value::boolean_value: ECMAScript ToBoolean, total. -/
def boolean_value : DynValue → Bool
  | .vnull => false
  | .vundefined => false
  | .vbool b => b
  | .vnumber .nan => false
  | .vnumber (.fin q) => decide (q ≠ 0)
  | .vbigint i => decide (i ≠ 0)
  | .vstring s => decide (s ≠ "")
  | .varray _ => true
  | .vobject _ => true
  | .vmap _ => true

/-- v8::Value::to_big_int: ECMAScript ToBigInt; none models the thrown
TypeError (numbers, null, undefined) or SyntaxError (non-integer strings).
Objects, arrays and maps coerce through their ToString. -/
def toBigIntModel : DynValue → Option ℤ
  | .vbigint i => some i
  | .vbool b => some (if b then 1 else 0)
  | .vstring s => stringToBigInt s
  | .vnull => none
  | .vundefined => none
  | .vnumber _ => none
  | .varray l => stringToBigInt (js_to_string (.varray l))
  | .vobject props => stringToBigInt (js_to_string (.vobject props))
  | .vmap entries => stringToBigInt (js_to_string (.vmap entries))

/-- v8::String::kMaxLength on 64-bit platforms. -/
def kMaxLength : ℕ := 2 ^ 29 - 24

/-- v8::String::new: fails (returns none) when the text exceeds the engine's
maximum string length. -/
def stringNew (s : String) : Option DynValue :=
  if s.length ≤ kMaxLength then some (.vstring s) else none

/-- v8::Object::get with a string key.  The engine returns nothing only when
a getter throws, which the model's data objects never do: an absent property
yields undefined.  For arrays, canonical index keys address the elements.
A Map's entries are internal slots, not properties. -/
def objGet (target : DynValue) (key : String) : Option DynValue :=
  match target with
  | .vobject props => some ((((props.find? fun p => p.1 == key)).map Prod.snd).getD .vundefined)
  | .varray l => some (((parseIndex key).bind fun i => l.get? i).getD .vundefined)
  | .vmap _ => some .vundefined
  | _ => some .vundefined

/-- v8::Object::get with an arbitrary key value: the key goes through
ToPropertyKey, i.e. ToString. -/
def objGetV (target : DynValue) (key : DynValue) : Option DynValue :=
  objGet target (js_to_string key)

/-- v8::Object::get_own_property_names: the object's own enumerable keys, in
insertion order (index keys of arrays come back as number values).  Maps have
no own enumerable properties. -/
def ownPropertyNames : DynValue → Option (List DynValue)
  | .vobject props => some (props.map fun p => .vstring p.1)
  | .varray l => some ((List.range l.length).map fun i => .vnumber (.fin i))
  | .vmap _ => some []
  | _ => none

/-!
helpers.rs: the scalar decoders and the field/container access protocol.
The scope argument of the Rust functions carries no data in the model and is
dropped; the generic parse functions and element decoders become explicit
function arguments.
-/

/-- helpers.rs try_as_bool: the engine's truthiness coercion, total. -/
def try_as_bool (v : DynValue) : Except Error Bool :=
  .ok (boolean_value v)

/-- helpers.rs try_as_string: the engine's to-string coercion, total. -/
def try_as_string (v : DynValue) : Except Error String :=
  .ok (js_to_string v)

/-- helpers.rs try_as_i32: int32_value with ExpectedI32 when the engine
coercion yields nothing. -/
def try_as_i32 (v : DynValue) : Except Error ℤ :=
  match int32_value v with
  | none => .error .ExpectedI32
  | some n => .ok n

/-- helpers.rs try_as_u32: direct value for engine-tagged uint32, 0 for
null/undefined, otherwise the big-int coercion truncated to 64 bits and
range-checked into u32 (u32::try_from on i64_value().0). -/
def try_as_u32 (v : DynValue) : Except Error ℤ :=
  if is_uint32 v then
    match uint32_value v with
    | none => .error .ExpectedU32
    | some n => .ok n
  else if is_null_or_undefined v then .ok 0
  else
    match toBigIntModel v with
    | none => .error .ExpectedU32
    | some b =>
      if 0 ≤ wrapI64 b ∧ wrapI64 b < 2 ^ 32 then .ok (wrapI64 b) else .error .OutOfRange

/-- helpers.rs try_as_i64: to_big_int, then i64_value().0 (low 64 bits,
signed; the lossless flag is discarded by the source). -/
def try_as_i64 (v : DynValue) : Except Error ℤ :=
  match toBigIntModel v with
  | none => .error .ExpectedI64
  | some b => .ok (wrapI64 b)

/-- helpers.rs try_as_f64: number_value with ExpectedF64 when the engine
coercion yields nothing. -/
def try_as_f64 (v : DynValue) : Except Error JsNum :=
  match number_value v with
  | none => .error .ExpectedF64
  | some n => .ok n

/-- Whether a double is exactly representable as an IEEE-754 binary32 value:
some exponent E in the binary32 range [-149, 104] scales it to an integer
mantissa of magnitude below 2^24.  The scaling q * 2^(-E) is tested on the
numerator and denominator directly (E = 149 - e below). -/
def isF32 (q : ℚ) : Bool :=
  (List.range 254).any fun e =>
    let a := q.num.natAbs
    if e ≤ 149 then
      let w := a * 2 ^ (149 - e)
      w % q.den == 0 && decide (w / q.den < 2 ^ 24)
    else
      let dd := q.den * 2 ^ (e - 149)
      a % dd == 0 && decide (a / dd < 2 ^ 24)

/-- binary32 representability lifted to JsNum. -/
def isF32Js : JsNum → Bool
  | .nan => true
  | .fin q => isF32 q

/-- The model of a Rust f32: a double exactly representable in binary32. -/
def Float32 := { x : JsNum // isF32Js x = true }

/-- Rust "as f32" narrowing.  On exactly representable doubles (the only
inputs the claims evaluate) IEEE round-to-nearest is the identity; rounding
of other doubles is not modelled and falls back to zero. -/
def f64_as_f32 (x : JsNum) : Float32 :=
  if h : isF32Js x = true then ⟨x, h⟩ else ⟨.fin 0, by decide⟩

/-- helpers.rs try_as_f32: decode as double, then narrow with "as f32". -/
def try_as_f32 (v : DynValue) : Except Error Float32 := do
  let i ← try_as_f64 v
  pure (f64_as_f32 i)

/-- helpers.rs get_field_as: object-shape check, key creation (InvalidField
when the engine cannot build the key string), property lookup (FieldNotFound
when the lookup returns nothing), then the field's parse function. -/
def get_field_as (field_name : String) (input : DynValue)
    (parse_fn : DynValue → Except Error α) : Except Error α :=
  if is_object input then
    match stringNew field_name with
    | none => .error (.InvalidField field_name)
    | some _ =>
      match objGet input field_name with
      | none => .error (.FieldNotFound field_name)
      | some js_value => parse_fn js_value
  else .error .ExpectedObject

/-- helpers.rs get_optional_field_as: same shape and key steps; a lookup that
returns nothing, or a null/undefined value, yields empty without invoking the
parse function. -/
def get_optional_field_as (field_name : String) (input : DynValue)
    (parse_fn : DynValue → Except Error α) : Except Error (Option α) :=
  if is_object input then
    match stringNew field_name with
    | none => .error (.InvalidField field_name)
    | some _ =>
      match objGet input field_name with
      | none => .ok none
      | some js_value =>
        if is_null_or_undefined js_value then .ok none
        else (parse_fn js_value).map some
  else .error .ExpectedObject

/-- helpers.rs try_as_vec loop body: i counts up through 0..length with n
iterations left; get_index within bounds never returns nothing on the model
list, so the source's skip branch is unreachable. -/
def try_as_vec_go (d : DynValue → Except Error α) (l : List DynValue) :
    ℕ → ℕ → Except Error (List α)
  | _, 0 => .ok []
  | i, n + 1 =>
    match l[i]? with
    | none => try_as_vec_go d l (i + 1) n
    | some e => do
      let x ← d e
      let rest ← try_as_vec_go d l (i + 1) n
      pure (x :: rest)

/-- helpers.rs try_as_vec: ExpectedArray unless array-shaped, else the
index loop 0..length with the element decoder. -/
def try_as_vec (d : DynValue → Except Error α) (v : DynValue) : Except Error (List α) :=
  match v with
  | .varray l => try_as_vec_go d l 0 l.length
  | _ => .error .ExpectedArray

/-- Rust HashMap::insert on the association-list model: replace the entry
with the same key, else append. -/
def hmInsert (m : List (String × α)) (k : String) (x : α) : List (String × α) :=
  if m.any fun p => p.1 == k then
    m.map fun p => if p.1 == k then (k, x) else p
  else m ++ [(k, x)]

/-- v8::Map::as_array: the backing store of a map, keys and values
alternating, twice the map's size. -/
def flattenEntries : List (DynValue × DynValue) → List DynValue
  | [] => []
  | (k, v) :: rest => k :: v :: flattenEntries rest

/-- helpers.rs try_as_hashmap, map branch: the step-by-2 index loop over the
backing array in list form; a lone trailing key (odd tail) is skipped like
the source's continue. -/
def hashmap_map_go (d : DynValue → Except Error α) :
    List DynValue → List (String × α) → Except Error (List (String × α))
  | [], acc => .ok acc
  | [_], acc => .ok acc
  | k :: v :: rest, acc => do
    let x ← d v
    hashmap_map_go d rest (hmInsert acc (js_to_string k) x)

/-- helpers.rs try_as_hashmap, object branch: iterate the own property
names; each name is looked up (ToPropertyKey stringification), decoded, and
inserted under its stringified key. -/
def hashmap_obj_go (d : DynValue → Except Error α) (obj : DynValue) :
    List DynValue → List (String × α) → Except Error (List (String × α))
  | [], acc => .ok acc
  | key :: rest, acc =>
    match objGetV obj key with
    | none => .error .FailedToGetPropertyNames
    | some v => do
      let x ← d v
      hashmap_obj_go d obj rest (hmInsert acc (js_to_string key) x)

/-- helpers.rs try_as_hashmap: ExpectedMap unless map- or object-shaped;
maps iterate their backing (key, value) array, plain objects (and arrays,
which the engine also reports as objects) enumerate own property names. -/
def try_as_hashmap (d : DynValue → Except Error α) (v : DynValue) :
    Except Error (List (String × α)) :=
  if !(is_map v || is_object v) then .error .ExpectedMap
  else
    match v with
    | .vmap entries => hashmap_map_go d (flattenEntries entries) []
    | _ =>
      match ownPropertyNames v with
      | none => .error .FailedToGetPropertyNames
      | some keys => hashmap_obj_go d v keys []

/-- from.rs impl TryFromValue for Option: null/undefined decode to empty
without invoking the inner decoder; otherwise the inner decode is wrapped. -/
def option_try_from_value (d : DynValue → Except Error α) (v : DynValue) :
    Except Error (Option α) :=
  if is_null_or_undefined v then .ok none
  else (d v).map some

/-!
into.rs: the scalar encoders (IntoValue impls), all total.  i32/u32 become
engine numbers (v8::Integer is a Number), i64 becomes a BigInt, f32 widens
exactly into f64.
-/

/-- into.rs impl IntoValue for bool. -/
def into_value_bool (b : Bool) : DynValue := .vbool b

/-- into.rs impl IntoValue for i32 (v8::Integer::new — a Number). -/
def into_value_i32 (i : ℤ) : DynValue := .vnumber (.fin (i : ℚ))

/-- into.rs impl IntoValue for u32 (v8::Integer::new_from_unsigned — a
Number). -/
def into_value_u32 (n : ℤ) : DynValue := .vnumber (.fin (n : ℚ))

/-- into.rs impl IntoValue for i64 (v8::BigInt::new_from_i64, exact). -/
def into_value_i64 (i : ℤ) : DynValue := .vbigint i

/-- into.rs impl IntoValue for f64 (v8::Number::new). -/
def into_value_f64 (x : JsNum) : DynValue := .vnumber x

/-- into.rs impl IntoValue for f32: f64::from(self) is an exact widening,
then encode as a double. -/
def into_value_f32 (x : Float32) : DynValue := .vnumber x.val

/-- into.rs impl IntoValue for String: v8::String::new with a silent
empty-string fallback when the engine cannot create the string. -/
def into_value_string (s : String) : DynValue :=
  (stringNew s).getD (.vstring "")

/-!
Modelled from the spec: the decode half of the derivation generator
(v8_derive_macros) for the test record SimpleObject of from.rs.  The macro
helpers module is not under src/; spec section 4.5 fixes the generated shape:
one plain accessor per mandatory field and one optional accessor per
Optional field, in declaration order, assembled all-or-nothing.
-/

structure SimpleObject where
  yes_no : Bool
  name : String
  age : ℤ
  opt : Option ℤ
  avg : JsNum

/-- Modelled from the spec: the FromValue derive output for SimpleObject
(fields yes_no, name, age, opt, avg in declaration order; opt is the only
Optional field). -/
def SimpleObject.try_from_value (v : DynValue) : Except Error SimpleObject := do
  let yes_no ← get_field_as "yes_no" v try_as_bool
  let name ← get_field_as "name" v try_as_string
  let age ← get_field_as "age" v try_as_i32
  let opt ← get_optional_field_as "opt" v try_as_i32
  let avg ← get_field_as "avg" v try_as_f64
  pure ⟨yes_no, name, age, opt, avg⟩

/-!
json.rs: the tree-value bridge between dynamic values and serde_json values.
serde_json numbers are one of: a u64 (non-negative integer), a negative i64,
or a finite f64.
-/

/-- A serde_json Number: PosInt holds a u64 (invariant n < 2^64 where it
matters, carried as a hypothesis), NegInt a negative i64, Float a finite
f64. -/
inductive JNum where
  | posInt (n : ℕ)
  | negInt (i : ℤ)
  | float (q : ℚ)
  deriving Repr, DecidableEq

/-- A serde_json Value. -/
inductive JsonValue where
  | null
  | bool (b : Bool)
  | num (n : JNum)
  | str (s : String)
  | arr (l : List JsonValue)
  | obj (l : List (String × JsonValue))

/-- serde_json Number::as_i64: a PosInt only when it fits i64, a NegInt
always, a Float never (even when integral). -/
def jnum_as_i64 : JNum → Option ℤ
  | .posInt n => if n ≤ 2 ^ 63 - 1 then some (n : ℤ) else none
  | .negInt i => some i
  | .float _ => none

/-- Bounded upward scan for the binary64 exponent: the first k (at most
fuel more steps) with n < 2^(54 + k). -/
def f64ExpGo (n : ℕ) : ℕ → ℕ → ℕ
  | 0, k => k
  | f + 1, k => if n < 2 ^ (54 + k) then k else f64ExpGo n f (k + 1)

/-- Round a natural number to the nearest IEEE-754 binary64 value
(round-to-nearest, ties-to-even); exact below 2^53.  The exponent e is the
unique value with 2^(52+e) <= n < 2^(53+e), found by a bounded scan (n is a
u64 wherever this is applied, far inside the scan bound). -/
def roundF64Nat (n : ℕ) : ℕ :=
  if n < 2 ^ 53 then n
  else
    let e := f64ExpGo n 1000 0 + 1
    let q := n / 2 ^ e
    let r := n % 2 ^ e
    let half := 2 ^ (e - 1)
    let q2 := if half < r ∨ (r = half ∧ q % 2 = 1) then q + 1 else q
    q2 * 2 ^ e

/-- Nearest binary64 value of an integer (sign preserved). -/
def roundF64Int (i : ℤ) : ℤ :=
  if i < 0 then -(roundF64Nat i.natAbs : ℤ) else (roundF64Nat i.natAbs : ℤ)

/-- serde_json Number::as_f64: integers convert with "as f64" rounding,
floats are returned as stored; always succeeds. -/
def jnum_as_f64 : JNum → Option ℚ
  | .posInt n => some ((roundF64Nat n : ℕ) : ℚ)
  | .negInt i => some ((roundF64Int i : ℤ) : ℚ)
  | .float q => some q

/-- serde_json Number::from an integer: non-negative becomes a PosInt,
negative a NegInt. -/
def jnumOfInt (i : ℤ) : JNum :=
  if 0 ≤ i then .posInt i.toNat else .negInt i

/-- serde_json Value::from(f64): finite doubles become numbers, NaN becomes
Null. -/
def jsonOfF64 : JsNum → JsonValue
  | .fin q => .num (.float q)
  | .nan => .null

/-- Insert into a serde_json object map (key replacement; the source's
BTreeMap key ordering is not modelled, the object is treated as an
unordered association). -/
def jsonObjInsert (m : List (String × JsonValue)) (k : String) (x : JsonValue) :
    List (String × JsonValue) :=
  if m.any fun p => p.1 == k then
    m.map fun p => if p.1 == k then (k, x) else p
  else m ++ [(k, x)]

/-- Sequence a list of fallible results, first error wins (the json.rs loops
convert elements in order and propagate the first failure). -/
def exceptSequence : List (Except Error β) → Except Error (List β)
  | [] => .ok []
  | x :: xs => do
    let b ← x
    let rest ← exceptSequence xs
    pure (b :: rest)

/-- Fold converted object entries into a serde_json object, first error
wins. -/
def jsonObjFold : List (String × Except Error JsonValue) →
    List (String × JsonValue) → Except Error JsonValue
  | [], acc => .ok (.obj acc)
  | (k, r) :: rest, acc => do
    let x ← r
    jsonObjFold rest (jsonObjInsert acc k x)

/-- json.rs v8_to_json_value, fuelled for the array/object recursion (the
wrapper supplies jsFuel).  The dispatch mirrors the source's if-chain:
string, int32, uint32, big-int, number, boolean, null, array, object, else
UnsupportedValueType.  The match arms below follow that order; a map has no
own enumerable properties, so the object branch converts it to an empty
object. -/
def v8_to_json_fuel (fuel : ℕ) (v : DynValue) : Except Error JsonValue :=
  match v with
  | .vstring _ => (try_as_string v).map .str
  | .vnumber _ =>
    if is_int32 v then (try_as_i32 v).map fun i => .num (jnumOfInt i)
    else if is_uint32 v then (try_as_u32 v).map fun i => .num (jnumOfInt i)
    else (try_as_f64 v).map jsonOfF64
  | .vbigint _ => (try_as_i64 v).map fun i => .num (jnumOfInt i)
  | .vbool _ => (try_as_bool v).map .bool
  | .vnull => .ok .null
  | .varray l =>
    match fuel with
    | 0 => .error .UnsupportedValueType
    | f + 1 =>
      (exceptSequence (l.map fun item =>
        if is_null_or_undefined item then .ok .null else v8_to_json_fuel f item)).map .arr
  | .vobject props =>
    match fuel with
    | 0 => .error .UnsupportedValueType
    | f + 1 =>
      jsonObjFold (props.map fun p => (p.1, v8_to_json_fuel f p.2)) []
  | .vmap _ => .ok (.obj [])
  | .vundefined => .error .UnsupportedValueType

/-- json.rs v8_to_json_value.  The array loop returns Null for an element
the engine cannot fetch; on the model that only covers null/undefined
elements (fetch never fails, and the recursive conversion of undefined
itself would error, whereas a hole yields Null — holes and undefined
elements coincide here). -/
def v8_to_json_value (v : DynValue) : Except Error JsonValue :=
  v8_to_json_fuel jsFuel v

/-- json.rs json_to_v8, fuelled for the array/object recursion.  Numbers go
through as_i64 (encoded exactly as a BigInt via i64's IntoValue), then
as_f64 (encoded as a double), then the documented i64::MAX fallback; object
keys are created with String's IntoValue (empty-string fallback). -/
def json_to_v8_fuel (fuel : ℕ) (j : JsonValue) : DynValue :=
  match j with
  | .null => .vnull
  | .bool b => into_value_bool b
  | .num n =>
    match jnum_as_i64 n with
    | some i => into_value_i64 i
    | none =>
      match jnum_as_f64 n with
      | some q => into_value_f64 (.fin q)
      | none => into_value_i64 (2 ^ 63 - 1)
  | .str s => into_value_string s
  | .arr l =>
    match fuel with
    | 0 => .varray []
    | f + 1 => .varray (l.map fun item => json_to_v8_fuel f item)
  | .obj l =>
    match fuel with
    | 0 => .vobject []
    | f + 1 => .vobject (l.map fun p => (js_to_string (into_value_string p.1), json_to_v8_fuel f p.2))

/-- json.rs json_to_v8. -/
def json_to_v8 (j : JsonValue) : DynValue :=
  json_to_v8_fuel jsFuel j

/-!
Spec-side reference definitions and shared lemmas.
-/

/-- Reference sequence decode: each element through the decoder, in order,
first failure aborts. -/
def decodeList (d : DynValue → Except Error α) : List DynValue → Except Error (List α)
  | [] => .ok []
  | x :: xs => do
    let r ← d x
    let rs ← decodeList d xs
    pure (r :: rs)

/-- Reference mapping decode: fold the (string key, value) entries in order
into the accumulator, decoding each value, first failure aborts. -/
def entriesFold (d : DynValue → Except Error α) :
    List (String × DynValue) → List (String × α) → Except Error (List (String × α))
  | [], acc => .ok acc
  | (k, x) :: rest, acc => do
    let r ← d x
    entriesFold d rest (hmInsert acc k r)

theorem is_uint32_shape {v : DynValue} (h : is_uint32 v = true) :
    ∃ q : ℚ, v = .vnumber (.fin q) := by
  cases v with
  | vnumber n =>
    cases n with
    | fin q => exact ⟨q, rfl⟩
    | nan => simp [is_uint32] at h
  | vnull => simp [is_uint32] at h
  | vundefined => simp [is_uint32] at h
  | vbool b => simp [is_uint32] at h
  | vbigint i => simp [is_uint32] at h
  | vstring s => simp [is_uint32] at h
  | varray l => simp [is_uint32] at h
  | vobject props => simp [is_uint32] at h
  | vmap entries => simp [is_uint32] at h

theorem try_as_u32_none_branch (v : DynValue) (h1 : is_uint32 v = false)
    (h2 : is_null_or_undefined v = false) (hb : toBigIntModel v = none) :
    try_as_u32 v = .error .ExpectedU32 := by
  simp [try_as_u32, h1, h2, hb]

theorem try_as_u32_some_branch (v : DynValue) (h1 : is_uint32 v = false)
    (h2 : is_null_or_undefined v = false) (b : ℤ) (hb : toBigIntModel v = some b) :
    try_as_u32 v =
      if 0 ≤ wrapI64 b ∧ wrapI64 b < 2 ^ 32 then .ok (wrapI64 b)
      else .error .OutOfRange := by
  simp [try_as_u32, h1, h2, hb]

end V8D

namespace V8D

/-- C10: applying the tree-value bridge decoder to the undefined dynamic
value returns the UnsupportedValueType error (undefined matches none of the
dispatch branches), while null maps to the tree Null value. -/
theorem c10_undefined_unsupported :
    v8_to_json_value .vundefined = .error .UnsupportedValueType ∧
    v8_to_json_value .vnull = .ok .null :=
  ⟨rfl, rfl⟩

/-- C9: encoding a native String is total; when the engine cannot create the
dynamic string (text over the engine's maximum string length) the encoder
silently returns the empty dynamic string. -/
theorem c9_string_encode_fallback (s : String) (h : kMaxLength < s.length) :
    into_value_string s = .vstring "" := by
  unfold into_value_string stringNew
  rw [if_neg (by omega)]
  rfl

/-- C9 witness: a concrete string longer than the engine limit encodes to
the empty dynamic string. -/
theorem c9_witness :
    into_value_string (String.mk (List.replicate (2 ^ 29) 'a')) = .vstring "" := by
  apply c9_string_encode_fallback
  show kMaxLength < (List.replicate (2 ^ 29) 'a').length
  rw [List.length_replicate]
  decide

/-- C5: decoding Option from null or undefined yields none regardless of the
element decoder (so without invoking it); otherwise an element-decoder error
is returned verbatim and an element-decoder success is wrapped in some. -/
theorem c5_option_decode :
    (∀ (α : Type) (d1 d2 : DynValue → Except Error α) (v : DynValue),
      is_null_or_undefined v = true →
      option_try_from_value d1 v = .ok none ∧
        option_try_from_value d1 v = option_try_from_value d2 v) ∧
    (∀ (α : Type) (d : DynValue → Except Error α) (v : DynValue) (e : Error),
      is_null_or_undefined v = false → d v = .error e →
      option_try_from_value d v = .error e) ∧
    (∀ (α : Type) (d : DynValue → Except Error α) (v : DynValue) (x : α),
      is_null_or_undefined v = false → d v = .ok x →
      option_try_from_value d v = .ok (some x)) := by
  refine ⟨fun α d1 d2 v h => ⟨?_, ?_⟩, fun α d v e h hd => ?_, fun α d v x h hd => ?_⟩
  · simp [option_try_from_value, h]
  · simp [option_try_from_value, h]
  · simp [option_try_from_value, h, hd, Except.map]
  · simp [option_try_from_value, h, hd, Except.map]

/-- C5 witness: Option of i32 decodes null to none, and an element-decoder
failure on a present value is propagated verbatim. -/
theorem c5_witness :
    option_try_from_value try_as_i32 .vnull = .ok none ∧
    option_try_from_value try_as_i32 (.vbigint 3) = .error .ExpectedI32 := by
  refine ⟨(c5_option_decode.1 ℤ try_as_i32 try_as_i32 .vnull rfl).1, ?_⟩
  exact c5_option_decode.2.1 ℤ try_as_i32 (.vbigint 3) .ExpectedI32 rfl rfl

/-- C3 counterexample: a big-int input makes try_as_i32 return the
ExpectedI32 error (the engine numeric coercion of a BigInt throws), so the
decoder is not error-free on every input as claimed. -/
theorem c3_bigint_input_yields_expected_i32 :
    try_as_i32 (.vbigint 7) = .error .ExpectedI32 :=
  rfl

/-- C3 amended: try_as_i32 fails, with ExpectedI32, exactly on big-int
inputs (whose numeric coercion throws); on every other input it succeeds,
with non-numeric input coercing to 0 and numbers truncated and wrapped into
signed 32-bit range. -/
theorem c3_i32_coercion_total_except_bigint :
    (∀ v : DynValue, is_big_int v = true → try_as_i32 v = .error .ExpectedI32) ∧
    (∀ v : DynValue, is_big_int v = false → ∃ n : ℤ, try_as_i32 v = .ok n) ∧
    (∀ q : ℚ, try_as_i32 (.vnumber (.fin q)) = .ok (wrap32 (truncQ q))) ∧
    (∀ s : String, stringToNumber s = none → try_as_i32 (.vstring s) = .ok 0) := by
  refine ⟨fun v h => ?_, fun v h => ?_, fun q => rfl, fun s h => ?_⟩
  · cases v <;> simp [is_big_int] at h ⊢
    rfl
  · cases v with
    | vbigint i => simp [is_big_int] at h
    | vnull => exact ⟨_, rfl⟩
    | vundefined => exact ⟨_, rfl⟩
    | vbool b => exact ⟨_, rfl⟩
    | vnumber n => cases n <;> exact ⟨_, rfl⟩
    | vstring s => exact ⟨_, rfl⟩
    | varray l => exact ⟨_, rfl⟩
    | vobject props => exact ⟨_, rfl⟩
    | vmap entries => exact ⟨_, rfl⟩
  · simp [try_as_i32, int32_value, toNumberModel, numOfString, h]

/-- C3 witness: a non-numeric string decodes to 0 and a fractional number is
truncated. -/
theorem c3_witness :
    try_as_i32 (.vstring "abc") = .ok 0 ∧
    try_as_i32 (.vnumber (.fin (mkRat 5 2))) = .ok 2 := by
  constructor
  · exact c3_i32_coercion_total_except_bigint.2.2.2 "abc" rfl
  · rw [c3_i32_coercion_total_except_bigint.2.2.1 (mkRat 5 2)]
    rfl

/-- C4 counterexample: the big-int branch truncates the coerced integer to
its low 64 bits before the range check, so the negative big integer -(2^64)
decodes to Ok 0 where the claim requires an OutOfRange failure. -/
theorem c4_negative_bigint_wraps_to_ok :
    try_as_u32 (.vbigint (-(2 ^ 64))) = .ok 0 ∧
    toBigIntModel (.vbigint (-(2 ^ 64))) = some (-(2 ^ 64)) ∧
    ((-(2 ^ 64) : ℤ) < 0) :=
  ⟨rfl, rfl, by decide⟩

/-- C4 amended: uint32-tagged input returns directly and null/undefined give
0 (never OutOfRange); otherwise OutOfRange occurs exactly when the coerced
big integer, truncated to its signed low 64 bits, is negative or does not
fit in 32 bits; a negative numeric string therefore errors while
null/undefined yields 0. -/
theorem c4_u32_decode_characterization :
    (∀ v : DynValue,
      try_as_u32 v = .error .OutOfRange ↔
        is_uint32 v = false ∧ is_null_or_undefined v = false ∧
          ∃ b : ℤ, toBigIntModel v = some b ∧
            (wrapI64 b < 0 ∨ 2 ^ 32 ≤ wrapI64 b)) ∧
    try_as_u32 (.vstring "-10") = .error .OutOfRange ∧
    try_as_u32 .vnull = .ok 0 ∧
    try_as_u32 .vundefined = .ok 0 := by
  refine ⟨fun v => ?_, rfl, rfl, rfl⟩
  by_cases hu : is_uint32 v = true
  · obtain ⟨q, rfl⟩ := is_uint32_shape hu
    simp [try_as_u32, hu, uint32_value, toNumberModel]
  · have hu2 : is_uint32 v = false := by simp_all
    by_cases hn : is_null_or_undefined v = true
    · simp [try_as_u32, hu2, hn]
    · have hn2 : is_null_or_undefined v = false := by simp_all
      cases hb : toBigIntModel v with
      | none =>
        rw [try_as_u32_none_branch v hu2 hn2 hb]
        simp [hb]
      | some b =>
        rw [try_as_u32_some_branch v hu2 hn2 b hb]
        by_cases hr : 0 ≤ wrapI64 b ∧ wrapI64 b < 2 ^ 32
        · rw [if_pos hr]
          constructor
          · intro h
            exact absurd h (by simp)
          · rintro ⟨-, -, b2, hb2, hout⟩
            injection hb2 with hh
            subst hh
            exact absurd hout (by omega)
        · rw [if_neg hr]
          constructor
          · intro _
            exact ⟨hu2, hn2, b, rfl, by omega⟩
          · intro _
            rfl

/-- C4 witness: the big integer 2^63 truncates to a negative signed 64-bit
value and is rejected with OutOfRange. -/
theorem c4_witness : try_as_u32 (.vbigint (2 ^ 63)) = .error .OutOfRange :=
  (c4_u32_decode_characterization.1 (.vbigint (2 ^ 63))).mpr
    ⟨rfl, rfl, 2 ^ 63, rfl, by decide⟩

/-- C1 counterexample: decoding the test record with the mandatory fields
name, age and avg entirely absent succeeds (the engine reports absent
properties as undefined, which the scalar decoders coerce), instead of
failing with FieldNotFound as claimed — exactly the behavior the repository
test should_be_able_to_handle_incomplete_values asserts. -/
theorem c1_missing_mandatory_field_decodes :
    SimpleObject.try_from_value (.vobject [("yes_no", .vbool true)])
      = .ok ⟨true, "undefined", 0, none, .nan⟩ :=
  rfl

/-- C1 amended: get_field_as returns FieldNotFound only when the property
lookup itself returns nothing, which for data objects never happens: a field
absent from the object is looked up as undefined and handed to the field
decoder, so a record with a missing mandatory field decodes through the
decoder's coercion of undefined rather than failing with FieldNotFound. -/
theorem c1_absent_field_goes_to_decoder_as_undefined {α : Type}
    (field_name : String) (props : List (String × DynValue))
    (d : DynValue → Except Error α)
    (hlen : field_name.length ≤ kMaxLength)
    (habs : ∀ p ∈ props, p.1 ≠ field_name) :
    get_field_as field_name (.vobject props) d = d .vundefined := by
  have hfind : (props.find? fun p => p.1 == field_name) = none := by
    rw [List.find?_eq_none]
    intro p hp
    simpa using habs p hp
  have h1 : stringNew field_name = some (.vstring field_name) := by
    unfold stringNew
    rw [if_pos hlen]
  have h2 : objGet (.vobject props) field_name = some .vundefined := by
    simp [objGet, hfind]
  simp [get_field_as, is_object, h1, h2]

/-- C1 witness: looking up the absent field name on the test object invokes
the string decoder on undefined, yielding Ok "undefined" rather than
FieldNotFound. -/
theorem c1_witness :
    get_field_as "name" (.vobject [("yes_no", .vbool true)]) try_as_string
      = .ok "undefined" := by
  rw [c1_absent_field_goes_to_decoder_as_undefined "name"
    [("yes_no", .vbool true)] try_as_string (by decide)
    (by intro p hp; rw [List.mem_singleton] at hp; subst hp; decide)]
  rfl

/-- C2 counterexample: the tree number u64::MAX (integral, above the i64
range) is encoded as its f64 approximation 2^64 in a dynamic number, not as
the i64::MAX big integer the claim requires. -/
theorem c2_u64_max_encodes_as_double :
    json_to_v8 (.num (.posInt (2 ^ 64 - 1))) = .vnumber (.fin ((2 ^ 64 : ℕ) : ℚ)) ∧
    json_to_v8 (.num (.posInt (2 ^ 64 - 1))) ≠ into_value_i64 (2 ^ 63 - 1) :=
  ⟨rfl, by intro h; exact nomatch h⟩

/-- C2 amended: a tree number representable as i64 is encoded exactly as a
big integer; a tree number not representable as i64 always has an f64
approximation and is encoded as that double (lossy), so the i64::MAX
fallback branch is unreachable for serde numbers. -/
theorem c2_number_encoding_cases :
    (∀ (n : JNum) (i : ℤ), jnum_as_i64 n = some i →
      json_to_v8 (.num n) = .vbigint i) ∧
    (∀ n : JNum, jnum_as_i64 n = none →
      ∃ q : ℚ, jnum_as_f64 n = some q ∧ json_to_v8 (.num n) = .vnumber (.fin q)) := by
  constructor
  · intro n i h
    simp [json_to_v8, json_to_v8_fuel, h, into_value_i64]
  · intro n h
    cases n with
    | posInt m =>
      refine ⟨((roundF64Nat m : ℕ) : ℚ), rfl, ?_⟩
      simp [json_to_v8, json_to_v8_fuel, h, jnum_as_f64, into_value_f64]
    | negInt i => simp [jnum_as_i64] at h
    | float q =>
      refine ⟨q, rfl, ?_⟩
      simp [json_to_v8, json_to_v8_fuel, h, jnum_as_f64, into_value_f64]

/-- C2 witness: a small positive integer is encoded exactly as a big
integer, and a float tree number is encoded as that double. -/
theorem c2_witness :
    json_to_v8 (.num (.posInt 5)) = .vbigint 5 ∧
    json_to_v8 (.num (.float 1)) = .vnumber (.fin 1) := by
  constructor
  · exact c2_number_encoding_cases.1 (.posInt 5) 5 rfl
  · have h := c2_number_encoding_cases.2 (.float 1) rfl
    rcases h with ⟨q, hq, he⟩
    cases hq
    exact he

theorem try_as_vec_go_eq_decodeList (d : DynValue → Except Error α) (l : List DynValue) :
    ∀ (n i : ℕ), try_as_vec_go d l i n = decodeList d ((l.drop i).take n)
  | 0, i => by simp [try_as_vec_go, decodeList]
  | n + 1, i => by
    cases hg : l[i]? with
    | none =>
      have hge : l.length ≤ i := by
        by_contra hlt
        rw [List.getElem?_eq_getElem (by omega)] at hg
        cases hg
      have hd1 : l.drop i = [] := List.drop_eq_nil_of_le hge
      have hd2 : l.drop (i + 1) = [] := List.drop_eq_nil_of_le (by omega)
      rw [try_as_vec_go, hg, try_as_vec_go_eq_decodeList d l n (i + 1), hd1, hd2]
      simp [decodeList]
    | some e =>
      have hlt : i < l.length := by
        by_contra hge
        rw [List.getElem?_eq_none (by omega)] at hg
        cases hg
      have hdrop : l.drop i = l[i] :: l.drop (i + 1) := List.drop_eq_getElem_cons hlt
      have he : l[i] = e := by
        rw [List.getElem?_eq_getElem hlt] at hg
        injection hg
      rw [try_as_vec_go, hg, try_as_vec_go_eq_decodeList d l n (i + 1), hdrop, he]
      rfl

theorem try_as_vec_eq_decodeList (d : DynValue → Except Error α) (l : List DynValue) :
    try_as_vec d (.varray l) = decodeList d l := by
  rw [show try_as_vec d (.varray l) = try_as_vec_go d l 0 l.length from rfl,
    try_as_vec_go_eq_decodeList d l l.length 0]
  simp

theorem decodeList_ok_pointwise (d : DynValue → Except Error α) :
    ∀ (l : List DynValue) (rs : List α), decodeList d l = .ok rs →
      rs.length = l.length ∧
      ∀ (i : ℕ) (x : DynValue), l[i]? = some x →
        ∃ r : α, d x = .ok r ∧ rs[i]? = some r
  | [], rs, h => by
    cases h
    exact ⟨rfl, by intro i x hx; simp at hx⟩
  | x :: xs, rs, h => by
    cases hd : d x with
    | error e => rw [decodeList, hd] at h; cases h
    | ok r =>
      cases hrest : decodeList d xs with
      | error e => rw [decodeList, hd, hrest] at h; cases h
      | ok rs2 =>
        rw [decodeList, hd, hrest] at h
        cases h
        obtain ⟨hlen, hpt⟩ := decodeList_ok_pointwise d xs rs2 hrest
        refine ⟨by simp [hlen], ?_⟩
        intro i y hy
        cases i with
        | zero =>
          rw [List.getElem?_cons_zero] at hy
          injection hy with hy
          subst hy
          exact ⟨r, hd, by simp⟩
        | succ j =>
          simp only [List.getElem?_cons_succ] at hy ⊢
          exact hpt j y hy

theorem decodeList_first_error (d : DynValue → Except Error α) :
    ∀ (l1 : List DynValue) (x : DynValue) (l2 : List DynValue) (e : Error),
      (∀ y ∈ l1, ∃ r : α, d y = .ok r) → d x = .error e →
      decodeList d (l1 ++ x :: l2) = .error e
  | [], x, l2, e, _, hx => by
    show decodeList d (x :: l2) = .error e
    rw [decodeList, hx]
    rfl
  | y :: ys, x, l2, e, hok, hx => by
    obtain ⟨r, hr⟩ := hok y (by simp)
    have ih := decodeList_first_error d ys x l2 e (fun z hz => hok z (by simp [hz])) hx
    show decodeList d (y :: (ys ++ x :: l2)) = .error e
    rw [decodeList, hr, ih]
    rfl

/-- C6: sequence decode fails with ExpectedArray on non-arrays; on an array
it equals the in-order element-by-element decode, so a success has the
decoded elements at matching indices in order, and the first failing element
aborts the whole decode with that element's error. -/
theorem c6_vec_decode :
    (∀ (α : Type) (d : DynValue → Except Error α) (v : DynValue),
      is_array v = false → try_as_vec d v = .error .ExpectedArray) ∧
    (∀ (α : Type) (d : DynValue → Except Error α) (l : List DynValue),
      try_as_vec d (.varray l) = decodeList d l) ∧
    (∀ (α : Type) (d : DynValue → Except Error α) (l : List DynValue) (rs : List α),
      try_as_vec d (.varray l) = .ok rs →
        rs.length = l.length ∧
        ∀ (i : ℕ) (x : DynValue), l[i]? = some x →
          ∃ r : α, d x = .ok r ∧ rs[i]? = some r) ∧
    (∀ (α : Type) (d : DynValue → Except Error α) (l1 : List DynValue) (x : DynValue)
      (l2 : List DynValue) (e : Error),
      (∀ y ∈ l1, ∃ r : α, d y = .ok r) → d x = .error e →
      try_as_vec d (.varray (l1 ++ x :: l2)) = .error e) := by
  refine ⟨fun α d v h => ?_, fun α d l => try_as_vec_eq_decodeList d l,
    fun α d l rs h => ?_, fun α d l1 x l2 e hok hx => ?_⟩
  · cases v <;> simp [is_array] at h ⊢ <;> rfl
  · rw [try_as_vec_eq_decodeList] at h
    exact decodeList_ok_pointwise d l rs h
  · rw [try_as_vec_eq_decodeList]
    exact decodeList_first_error d l1 x l2 e hok hx

theorem objGetV_isSome (obj key : DynValue) : ∃ w, objGetV obj key = some w := by
  cases obj <;> exact ⟨_, rfl⟩

theorem hashmap_obj_go_cons (d : DynValue → Except Error α) (obj key : DynValue)
    (rest : List DynValue) (acc : List (String × α)) (w : DynValue)
    (hw : objGetV obj key = some w) :
    hashmap_obj_go d obj (key :: rest) acc =
      (d w).bind fun x => hashmap_obj_go d obj rest (hmInsert acc (js_to_string key) x) := by
  rw [hashmap_obj_go, hw]
  rfl

theorem hashmap_map_go_error (d : DynValue → Except Error α) :
    ∀ (arr : List DynValue) (acc : List (String × α)) (e : Error),
      hashmap_map_go d arr acc = .error e → ∃ x, d x = .error e
  | [], _, _, h => nomatch h
  | [_], _, _, h => nomatch h
  | _ :: v :: rest, acc, e, h => by
    cases hd : d v with
    | error e2 =>
      rw [hashmap_map_go, hd] at h
      cases h
      exact ⟨v, hd⟩
    | ok r =>
      rw [hashmap_map_go, hd] at h
      exact hashmap_map_go_error d rest _ e h

theorem hashmap_obj_go_error (d : DynValue → Except Error α) (obj : DynValue) :
    ∀ (keys : List DynValue) (acc : List (String × α)) (e : Error),
      hashmap_obj_go d obj keys acc = .error e → ∃ x, d x = .error e
  | [], _, _, h => nomatch h
  | key :: rest, acc, e, h => by
    obtain ⟨w, hw⟩ := objGetV_isSome obj key
    rw [hashmap_obj_go_cons d obj key rest acc w hw] at h
    cases hd : d w with
    | error e2 =>
      rw [hd] at h
      simp [Except.bind] at h
      subst h
      exact ⟨w, hd⟩
    | ok r =>
      rw [hd] at h
      simp only [Except.bind] at h
      exact hashmap_obj_go_error d obj rest _ e h

theorem hashmap_map_go_eq (d : DynValue → Except Error α) :
    ∀ (props : List (String × DynValue)) (acc : List (String × α)),
      hashmap_map_go d (flattenEntries (props.map fun p => (.vstring p.1, p.2))) acc
        = entriesFold d props acc
  | [], _ => rfl
  | (k, x) :: tl, acc => by
    show hashmap_map_go d
      (.vstring k :: x :: flattenEntries (tl.map fun p => (.vstring p.1, p.2))) acc
      = entriesFold d ((k, x) :: tl) acc
    rw [hashmap_map_go, entriesFold]
    cases hd : d x with
    | error e => rfl
    | ok r => exact hashmap_map_go_eq d tl _

theorem find?_key_append (k : String) (x : DynValue) (rest : List (String × DynValue)) :
    ∀ (pre : List (String × DynValue)), (∀ p ∈ pre, p.1 ≠ k) →
      ((pre ++ (k, x) :: rest).find? fun p => p.1 == k) = some (k, x)
  | [], _ => by simp [List.find?]
  | a :: pre, hk => by
    have ha : (a.1 == k) = false := by simp [hk a (by simp)]
    rw [List.cons_append, List.find?_cons_of_neg _ (by simp [ha])]
    exact find?_key_append k x rest pre fun p hp => hk p (by simp [hp])

theorem hashmap_obj_go_eq (d : DynValue → Except Error α) :
    ∀ (post pre : List (String × DynValue)) (acc : List (String × α)),
      ((pre ++ post).map Prod.fst).Nodup →
      hashmap_obj_go d (.vobject (pre ++ post)) (post.map fun p => .vstring p.1) acc
        = entriesFold d post acc
  | [], _, _, _ => rfl
  | (k, x) :: tl, pre, acc, hnd => by
    have hk : ∀ p ∈ pre, p.1 ≠ k := by
      intro p hp hpk
      rw [List.map_append] at hnd
      have hdisj := (List.nodup_append.mp hnd).2.2
      exact hdisj (List.mem_map_of_mem Prod.fst hp) (by simp [hpk])
    have hget : objGetV (.vobject (pre ++ (k, x) :: tl)) (.vstring k) = some x := by
      show some ((((pre ++ (k, x) :: tl).find? fun p => p.1 == k).map Prod.snd).getD .vundefined)
        = some x
      rw [find?_key_append k x tl pre hk]
      rfl
    show hashmap_obj_go d (.vobject (pre ++ (k, x) :: tl))
      (.vstring k :: tl.map fun p => .vstring p.1) acc = entriesFold d ((k, x) :: tl) acc
    rw [hashmap_obj_go_cons d _ _ _ _ x hget, entriesFold]
    cases hd : d x with
    | error e => rfl
    | ok r =>
      show hashmap_obj_go d (.vobject (pre ++ (k, x) :: tl))
        (tl.map fun p => .vstring p.1) (hmInsert acc (js_to_string (.vstring k)) r)
        = entriesFold d tl (hmInsert acc k r)
      have hassoc : pre ++ (k, x) :: tl = (pre ++ [(k, x)]) ++ tl := by simp
      have ih := hashmap_obj_go_eq d tl (pre ++ [(k, x)])
        (hmInsert acc (js_to_string (.vstring k)) r) (by rw [← hassoc]; exact hnd)
      rw [hassoc]
      exact ih

/-- C7 counterexample: with a nested mapping element type, a per-entry
decode failure propagates an ExpectedMap error out of try_as_hashmap on an
input that IS a map, so the ExpectedMap error is not returned exactly when
the input is neither map nor object. -/
theorem c7_nested_expected_map_propagates :
    try_as_hashmap (try_as_hashmap try_as_i32) (.vmap [(.vstring "k", .vnumber (.fin 1))])
      = .error .ExpectedMap ∧
    is_map (.vmap [(.vstring "k", .vnumber (.fin 1))]) = true :=
  ⟨rfl, rfl⟩

/-- C7 amended: the shape check fails with ExpectedMap exactly when the
value is neither map nor object, provided the element decoder itself never
returns ExpectedMap; every map-branch key is stringified; and a map and a
plain object holding the same string-keyed entries (distinct keys) decode to
equal results. -/
theorem c7_hashmap_decode :
    (∀ (α : Type) (d : DynValue → Except Error α) (v : DynValue),
      is_map v = false → is_object v = false →
      try_as_hashmap d v = .error .ExpectedMap) ∧
    (∀ (α : Type) (d : DynValue → Except Error α) (v : DynValue),
      (∀ x, d x ≠ .error .ExpectedMap) → (is_map v || is_object v) = true →
      try_as_hashmap d v ≠ .error .ExpectedMap) ∧
    (∀ (α : Type) (d : DynValue → Except Error α) (k x : DynValue) (r : α),
      d x = .ok r →
      try_as_hashmap d (.vmap [(k, x)]) = .ok [(js_to_string k, r)]) ∧
    (∀ (α : Type) (d : DynValue → Except Error α) (props : List (String × DynValue)),
      (props.map Prod.fst).Nodup →
      try_as_hashmap d (.vmap (props.map fun p => (.vstring p.1, p.2)))
        = try_as_hashmap d (.vobject props)) := by
  refine ⟨fun α d v h1 h2 => ?_, fun α d v hd hshape heq => ?_, fun α d k x r hdx => ?_,
    fun α d props hnd => ?_⟩
  · cases v with
    | vmap entries => simp [is_map] at h1
    | vobject props => simp [is_object] at h2
    | varray l => simp [is_object] at h2
    | vnull => rfl
    | vundefined => rfl
    | vbool b => rfl
    | vnumber n => rfl
    | vbigint i => rfl
    | vstring s => rfl
  · cases v with
    | vmap entries =>
      have heq2 : hashmap_map_go d (flattenEntries entries) [] = .error .ExpectedMap := heq
      obtain ⟨x, hx⟩ := hashmap_map_go_error d (flattenEntries entries) [] .ExpectedMap heq2
      exact hd x hx
    | vobject props =>
      have heq2 : hashmap_obj_go d (.vobject props)
          (props.map fun p => DynValue.vstring p.1) [] = .error .ExpectedMap := heq
      obtain ⟨x, hx⟩ := hashmap_obj_go_error d (.vobject props)
        (props.map fun p => DynValue.vstring p.1) [] .ExpectedMap heq2
      exact hd x hx
    | varray l =>
      have heq2 : hashmap_obj_go d (.varray l)
          ((List.range l.length).map fun i => DynValue.vnumber (.fin i)) []
          = .error .ExpectedMap := heq
      obtain ⟨x, hx⟩ := hashmap_obj_go_error d (.varray l)
        ((List.range l.length).map fun i => DynValue.vnumber (.fin i)) [] .ExpectedMap heq2
      exact hd x hx
    | vnull => simp [is_map, is_object] at hshape
    | vundefined => simp [is_map, is_object] at hshape
    | vbool b => simp [is_map, is_object] at hshape
    | vnumber n => simp [is_map, is_object] at hshape
    | vbigint i => simp [is_map, is_object] at hshape
    | vstring s => simp [is_map, is_object] at hshape
  · show hashmap_map_go d [k, x] [] = .ok [(js_to_string k, r)]
    rw [hashmap_map_go, hdx]
    rfl
  · have hl : try_as_hashmap d (.vmap (props.map fun p => (.vstring p.1, p.2)))
        = entriesFold d props [] := hashmap_map_go_eq d props []
    have hr : try_as_hashmap d (.vobject props) = entriesFold d props [] :=
      hashmap_obj_go_eq d props [] [] (by simpa using hnd)
    rw [hl, hr]

/-- C7 witness: a one-entry map and the equal-keyed plain object decode to
the same result, that result is the expected singleton mapping, and a
non-object value errors with ExpectedMap. -/
theorem c7_witness :
    try_as_hashmap try_as_i32 (.vmap [(.vstring "one", .vnumber (.fin 1))])
      = try_as_hashmap try_as_i32 (.vobject [("one", .vnumber (.fin 1))]) ∧
    try_as_hashmap try_as_i32 (.vobject [("one", .vnumber (.fin 1))]) = .ok [("one", 1)] ∧
    try_as_hashmap try_as_i32 .vnull = .error .ExpectedMap := by
  refine ⟨?_, rfl, c7_hashmap_decode.1 ℤ try_as_i32 .vnull rfl rfl⟩
  exact c7_hashmap_decode.2.2.2 ℤ try_as_i32 [("one", .vnumber (.fin 1))] (by simp)

/-- C6 witness: a non-array errors with ExpectedArray, a concrete array
decodes elementwise in order, and a failing element aborts with its own
error. -/
theorem c6_witness :
    try_as_vec try_as_i32 (.vbool true) = .error .ExpectedArray ∧
    try_as_vec try_as_i32 (.varray [.vnumber (.fin 1), .vnumber (.fin 2)]) = .ok [1, 2] ∧
    try_as_vec try_as_i32 (.varray [.vnumber (.fin 1), .vbigint 0]) = .error .ExpectedI32 := by
  refine ⟨c6_vec_decode.1 ℤ try_as_i32 (.vbool true) rfl, ?_, ?_⟩
  · rw [c6_vec_decode.2.1 ℤ try_as_i32]
    rfl
  · have h := c6_vec_decode.2.2.2 ℤ try_as_i32 [.vnumber (.fin 1)] (.vbigint 0) [] .ExpectedI32
      (by
        intro y hy
        rw [List.mem_singleton] at hy
        subst hy
        exact ⟨1, rfl⟩)
      rfl
    exact h

theorem wrap32_eq_self (i : ℤ) (h1 : -(2 ^ 31) ≤ i) (h2 : i < 2 ^ 31) : wrap32 i = i := by
  unfold wrap32
  omega

theorem wrapU32_eq_self (n : ℤ) (h1 : 0 ≤ n) (h2 : n < 2 ^ 32) : wrapU32 n = n := by
  unfold wrapU32
  omega

theorem wrapI64_eq_self (i : ℤ) (h1 : -(2 ^ 63) ≤ i) (h2 : i < 2 ^ 63) : wrapI64 i = i := by
  unfold wrapI64
  omega

theorem truncQ_intCast (i : ℤ) : truncQ (i : ℚ) = i := by
  unfold truncQ
  by_cases h : (0 : ℚ) ≤ (i : ℚ)
  · rw [if_pos h, Int.floor_intCast]
  · rw [if_neg h]
    have heq : -((i : ℚ)) = ((-i : ℤ) : ℚ) := by push_cast; ring
    rw [heq, Int.floor_intCast]
    ring

theorem is_uint32_intCast (n : ℤ) (h1 : 0 ≤ n) (h2 : n < 2 ^ 32) :
    is_uint32 (.vnumber (.fin (n : ℚ))) = true := by
  simp [is_uint32, Rat.num_intCast, Rat.den_intCast]
  omega

/-- C8: for every scalar type with both an encoder and a decoder — bool,
String, i32, u32, i64, f64, f32 — decoding the dynamic value produced by
encoding a representable native value yields that value back. -/
theorem c8_scalar_round_trip :
    (∀ b : Bool, try_as_bool (into_value_bool b) = .ok b) ∧
    (∀ s : String, s.length ≤ kMaxLength → try_as_string (into_value_string s) = .ok s) ∧
    (∀ i : ℤ, -(2 ^ 31) ≤ i → i < 2 ^ 31 → try_as_i32 (into_value_i32 i) = .ok i) ∧
    (∀ n : ℤ, 0 ≤ n → n < 2 ^ 32 → try_as_u32 (into_value_u32 n) = .ok n) ∧
    (∀ i : ℤ, -(2 ^ 63) ≤ i → i < 2 ^ 63 → try_as_i64 (into_value_i64 i) = .ok i) ∧
    (∀ x : JsNum, try_as_f64 (into_value_f64 x) = .ok x) ∧
    (∀ x : Float32, try_as_f32 (into_value_f32 x) = .ok x) := by
  refine ⟨fun b => rfl, fun s h => ?_, fun i h1 h2 => ?_, fun n h1 h2 => ?_,
    fun i h1 h2 => ?_, fun x => rfl, fun x => ?_⟩
  · unfold into_value_string stringNew
    rw [if_pos h]
    rfl
  · show Except.ok (wrap32 (truncQ (i : ℚ))) = .ok i
    rw [truncQ_intCast, wrap32_eq_self i h1 h2]
  · unfold try_as_u32
    rw [if_pos (show is_uint32 (into_value_u32 n) = true from is_uint32_intCast n h1 h2)]
    show Except.ok (wrapU32 (truncQ (n : ℚ))) = .ok n
    rw [truncQ_intCast, wrapU32_eq_self n h1 h2]
  · show Except.ok (wrapI64 i) = .ok i
    rw [wrapI64_eq_self i h1 h2]
  · obtain ⟨xv, hx⟩ := x
    show Except.ok (f64_as_f32 xv) = .ok ⟨xv, hx⟩
    unfold f64_as_f32
    rw [dif_pos hx]

/-- C8 witness: concrete round trips for each scalar type. -/
theorem c8_witness :
    try_as_bool (into_value_bool true) = .ok true ∧
    try_as_string (into_value_string "hi") = .ok "hi" ∧
    try_as_i32 (into_value_i32 (-7)) = .ok (-7) ∧
    try_as_u32 (into_value_u32 3000000000) = .ok 3000000000 ∧
    try_as_i64 (into_value_i64 (2 ^ 62)) = .ok (2 ^ 62) ∧
    try_as_f64 (into_value_f64 (.fin 1)) = .ok (.fin 1) ∧
    try_as_f32 (into_value_f32 ⟨.fin 1, by decide⟩) = .ok ⟨.fin 1, by decide⟩ := by
  refine ⟨c8_scalar_round_trip.1 true,
    c8_scalar_round_trip.2.1 "hi" (by decide),
    c8_scalar_round_trip.2.2.1 (-7) (by decide) (by decide),
    c8_scalar_round_trip.2.2.2.1 3000000000 (by decide) (by decide),
    c8_scalar_round_trip.2.2.2.2.1 (2 ^ 62) (by decide) (by decide),
    c8_scalar_round_trip.2.2.2.2.2.1 (.fin 1),
    c8_scalar_round_trip.2.2.2.2.2.2 ⟨.fin 1, by decide⟩⟩

end V8D
